import Mathlib

/-!
Shallow embedding of the ollama-workflows workflow interpreter
(andthattoo/ollama-workflows) in Lean 4, for checking the repository's
natural-language specification against the code.

Conventions of the embedding:
* Pure Rust functions become Lean functions; `&mut` state becomes explicit
  state passing.  Fallible Rust code returns `Except`; a Rust panic
  (`unwrap` on `None`/`Err`, out-of-range indexing, `gen_range` on an empty
  range) is modelled by an outer `Option` whose `none` means "the program
  panicked".
* External collaborators that the spec declares out of scope (the serde JSON
  parser and printer, LLM providers, web-search tools, the embedding model,
  the sentence splitter, the random number generator and the wall clock) are
  abstracted as oracle fields of the `Oracles` structure; every theorem below
  quantifies over all oracles unless it needs a concrete one.
* Rust `f32`/`f64` values that the claims compare (similarities, thresholds,
  parsed numbers) are modelled as rationals; the claims under study depend
  only on order comparisons, not on binary rounding.
* Rust `HashMap` iteration order is unspecified; the model fixes insertion
  order and theorems avoid depending on the order of distinct keys.
-/

/-- Minimal JSON value AST standing in for serde_json's `Value`.  The spec
puts JSON (de)serialization out of scope, so the parser and compact printer
are oracle parameters (`Oracles.json_parse` / `Oracles.json_print`); only the
structure needed by the executor (string extraction, object indexing,
integer extraction) is interpreted.  Floating point JSON numbers are outside
the modelled subset. -/
inductive JsonVal where
  | null : JsonVal
  | bool (b : Bool) : JsonVal
  | num (n : Int) : JsonVal
  | str (s : String) : JsonVal
  | arr (xs : List JsonVal) : JsonVal
  | obj (fields : List (String × JsonVal)) : JsonVal
deriving Repr

/-- Equality test on the JSON AST (hand rolled because the nested induction
defeats automatic deriving). -/
def JsonVal.beq : JsonVal → JsonVal → Bool
  | .null, .null => true
  | .bool a, .bool b => a == b
  | .num a, .num b => a == b
  | .str a, .str b => a == b
  | .arr xs, .arr ys =>
    match xs, ys with
    | [], [] => true
    | x :: xs', y :: ys' => x.beq y && (JsonVal.arr xs').beq (.arr ys')
    | _, _ => false
  | .obj xs, .obj ys =>
    match xs, ys with
    | [], [] => true
    | (k, x) :: xs', (l, y) :: ys' =>
      k == l && x.beq y && (JsonVal.obj xs').beq (.obj ys')
    | _, _ => false
  | _, _ => false

/-- Entry (src/src/memory/types.rs): a tagged value, either a raw string or
a structured JSON document. -/
inductive Entry where
  | str (s : String) : Entry
  | json (j : JsonVal) : Entry
deriving Repr

/-- Entry equality test, via `JsonVal.beq` on the JSON side. -/
def Entry.beq : Entry → Entry → Bool
  | .str a, .str b => a == b
  | .json a, .json b => a.beq b
  | _, _ => false

/-- Entry::try_value_or_str (src/src/memory/types.rs 24-32): construction
from a string first attempts a JSON parse; success yields the Json variant,
failure yields the String variant.  The serde parser is the `parse`
argument. -/
def try_value_or_str (parse : String → Option JsonVal) (s : String) : Entry :=
  match parse s with
  | some j => Entry.json j
  | none => Entry.str s

/-- Display for Entry (src/src/memory/types.rs 15-22): the String variant
renders as its content; the Json variant renders through serde's compact
printer, abstracted as the `print` argument. -/
def entry_to_string (print : JsonVal → String) : Entry → String
  | Entry.str s => s
  | Entry.json j => print j

/-- Scalar shapes of MemoryReturnType (src/src/memory/types.rs 48-55): a
single optional Entry or an optional list of Entries.  The Rust enum's
third variant Multiple(Vec<MemoryReturnType>) is recursive, but the
executor only ever places these two scalar shapes inside it (handle_input
constructs nothing else), so the model separates the scalars into their own
type and lets Multiple carry scalars; every reachable Rust value is
represented. -/
inductive MemoryScalar where
  | entry (e : Option Entry) : MemoryScalar
  | entryVec (v : Option (List Entry)) : MemoryScalar
deriving Repr

/-- MemoryReturnType (src/src/memory/types.rs 48-55): the envelope for
memory reads: a single optional Entry, an optional list of Entries, or a
list of wrapped (scalar, see MemoryScalar) results. -/
inductive MemoryReturnType where
  | entry (e : Option Entry) : MemoryReturnType
  | entryVec (v : Option (List Entry)) : MemoryReturnType
  | multiple (rs : List MemoryScalar) : MemoryReturnType
deriving Repr

/-- The inclusion of the scalar shapes into the full envelope. -/
def MemoryScalar.lift : MemoryScalar → MemoryReturnType
  | .entry e => MemoryReturnType.entry e
  | .entryVec v => MemoryReturnType.entryVec v

/-- MemoryReturnType::is_none on the scalar shapes
(src/src/memory/types.rs 58-65). -/
def MemoryScalar.is_none : MemoryScalar → Bool
  | .entry e => e.isNone
  | .entryVec v => v.isNone

/-- Display for MemoryReturnType on the scalar shapes
(src/src/memory/types.rs 90-119): a single entry renders as itself (empty
string when absent); an entry list concatenates each element followed by a
space and a newline. -/
def MemoryScalar.render (print : JsonVal → String) : MemoryScalar → String
  | .entry none => ""
  | .entry (some e) => entry_to_string print e
  | .entryVec none => ""
  | .entryVec (some es) =>
    String.join (es.map (fun e => entry_to_string print e ++ " \n"))

/-- MemoryReturnType::is_none (src/src/memory/types.rs 58-65). -/
def MemoryReturnType.is_none : MemoryReturnType → Bool
  | .entry e => e.isNone
  | .entryVec v => v.isNone
  | .multiple rs => rs.isEmpty

/-- Display for MemoryReturnType (src/src/memory/types.rs 90-119): the
scalar shapes render as in MemoryScalar.render, and Multiple concatenates
the renderings of its elements, each followed by a space and a newline. -/
def MemoryReturnType.render (print : JsonVal → String) : MemoryReturnType → String
  | .entry e => MemoryScalar.render print (MemoryScalar.entry e)
  | .entryVec v => MemoryScalar.render print (MemoryScalar.entryVec v)
  | .multiple rs =>
    String.join (rs.map (fun r => MemoryScalar.render print r ++ " \n"))

/-- MemoryReturnType::to_json (src/src/memory/types.rs 67-87): a JSON-array
rendering of the stringified elements, only for the EntryVec(Some) and
Multiple shapes; serde's string-list encoder is the `enc` oracle. -/
def MemoryReturnType.toJsonStr (print : JsonVal → String)
    (enc : List String → Option String) : MemoryReturnType → Option String
  | .entryVec (some es) => enc (es.map (entry_to_string print))
  | .multiple rs => enc (rs.map (MemoryScalar.render print))
  | _ => none

/-- From<MemoryReturnType> for Vec<Entry> on the scalar shapes
(src/src/memory/types.rs 121-128): only EntryVec carries a list; everything
else converts to the empty vector. -/
def MemoryScalar.toVec : MemoryScalar → List Entry
  | .entryVec v => v.getD []
  | _ => []

/-- MemoryInputType (src/src/memory/types.rs 42-46): external-memory seed
values, either a single Entry or a stack page. -/
inductive MemoryInputType where
  | entry (e : Entry) : MemoryInputType
  | page (p : List Entry) : MemoryInputType
deriving Repr

/-- EmbeddingError (src/src/program/errors.rs 22-28). -/
inductive EmbeddingError where
  | DocumentEmbedding (doc : String) : EmbeddingError
  | QueryEmbedding (query : String) : EmbeddingError
  | ModelDoesNotExist : EmbeddingError
deriving DecidableEq, Repr

/-- FileSystemError (src/src/program/errors.rs 13-20); the threshold inside
InvalidThreshold is the rejected f32, modelled as a rational. -/
inductive FileSystemError where
  | InsertionFailed (doc : String) : FileSystemError
  | SearchError : FileSystemError
  | EmbeddingError (e : EmbeddingError) : FileSystemError
  | InvalidThreshold (t : ℚ) : FileSystemError
deriving DecidableEq, Repr

/-- ToolError (src/src/program/errors.rs 30-33). -/
inductive ToolError where
  | ToolDoesNotExist : ToolError
deriving DecidableEq, Repr

/-- ExecutionError (src/src/program/errors.rs 35-46).  The executor in this
snapshot additionally constructs a WebSearchFailed variant for the search
operator; it is included so the executor translates verbatim. -/
inductive ExecutionError where
  | WorkflowFailed (reason : String) : ExecutionError
  | InvalidInput : ExecutionError
  | GenerationFailed (d : String) : ExecutionError
  | FunctionCallFailed (d : String) : ExecutionError
  | WebSearchFailed (d : String) : ExecutionError
  | VectorSearchFailed : ExecutionError
  | StringCheckFailed : ExecutionError
  | SamplingError : ExecutionError
  | InvalidGetAllError : ExecutionError
  | UnexpectedOutput : ExecutionError
deriving DecidableEq, Repr

/-- Rust's derive(Debug) escaping for the string payload of an error
variant (subset: quote, backslash, newline, tab, carriage return). -/
def rust_debug_string (s : String) : String :=
  "\"" ++ String.join (s.data.map (fun c =>
    if c = '"' then "\\\""
    else if c = '\\' then "\\\\"
    else if c = '\n' then "\\n"
    else if c = '\t' then "\\t"
    else if c = '\r' then "\\r"
    else String.mk [c])) ++ "\""

/-- Rust format!("\x7b:?\x7d", e) on ExecutionError, as used by the main
loop when a task fails with no fallback (src/src/program/executor.rs
167-170). -/
def debug_exec_error : ExecutionError → String
  | .WorkflowFailed r => "WorkflowFailed(" ++ rust_debug_string r ++ ")"
  | .InvalidInput => "InvalidInput"
  | .GenerationFailed d => "GenerationFailed(" ++ rust_debug_string d ++ ")"
  | .FunctionCallFailed d => "FunctionCallFailed(" ++ rust_debug_string d ++ ")"
  | .WebSearchFailed d => "WebSearchFailed(" ++ rust_debug_string d ++ ")"
  | .VectorSearchFailed => "VectorSearchFailed"
  | .StringCheckFailed => "StringCheckFailed"
  | .SamplingError => "SamplingError"
  | .InvalidGetAllError => "InvalidGetAllError"
  | .UnexpectedOutput => "UnexpectedOutput"

/-- Scanner for Rust str::replace with a nonempty pattern: walk the
character list left to right, replacing each non-overlapping occurrence of
the pattern; the fuel argument (initialised to the text length) only
certifies termination and never runs out on that initialisation. -/
def replace_go (pat rep : List Char) : Nat → List Char → List Char
  | _, [] => []
  | 0, s => s
  | fuel + 1, c :: cs =>
    if pat ≠ [] ∧ pat.isPrefixOf (c :: cs) then
      rep ++ replace_go pat rep fuel ((c :: cs).drop pat.length)
    else
      c :: replace_go pat rep fuel cs

/-- Rust str::replace (all occurrences).  An empty pattern matches at every
character boundary including both ends, exactly as in Rust. -/
def rust_replace (s pat rep : String) : String :=
  if pat.isEmpty then
    String.mk (rep.data ++ s.data.flatMap (fun c => c :: rep.data))
  else
    String.mk (replace_go pat.data rep.data s.data.length s.data)

/-- Rust str::trim_start.  Rust trims Unicode White_Space; the model uses
Lean's Char.isWhitespace (space, tab, carriage return, newline), which
agrees on the ASCII inputs the claims exercise. -/
def rust_trim_start (s : String) : String :=
  String.mk (s.data.dropWhile Char.isWhitespace)

/-- Rust str::trim_end, with the same whitespace caveat as rust_trim_start. -/
def rust_trim_end (s : String) : String :=
  String.mk ((s.data.reverse.dropWhile Char.isWhitespace).reverse)

/-- Rust str::trim, with the same whitespace caveat as rust_trim_start. -/
def rust_trim (s : String) : String :=
  rust_trim_end (rust_trim_start s)

/-- Rust str::to_lowercase.  Rust lowercases per Unicode; the model uses
Lean's Char.toLower (ASCII), which agrees on the ASCII inputs the claims
exercise. -/
def rust_to_lower (s : String) : String :=
  String.mk (s.data.map Char.toLower)

/-- Rust str::to_uppercase, with the same ASCII caveat as rust_to_lower. -/
def rust_to_upper (s : String) : String :=
  String.mk (s.data.map Char.toUpper)

/-- Rust str::contains on string patterns: substring containment. -/
def rust_contains (hay pat : String) : Bool :=
  hay.data.tails.any (fun t => pat.data.isPrefixOf t)

/-- Digit-string to number helper for the float parser: succeeds on a
nonempty all-digit list. -/
def digits_to_nat (cs : List Char) : Option Nat :=
  if cs.isEmpty then none
  else if cs.all Char.isDigit then
    some (cs.foldl (fun a c => a * 10 + (c.toNat - 48)) 0)
  else none

/-- Rust str::parse::<f64>, modelled on the decimal subset of the f64
grammar: an optional sign, then digits, digits.digits, digits. or .digits.
Exponents, inf and nan are outside the modelled subset, and exact rationals
stand in for rounded binary floats; the claims under study depend only on
parse success and on order comparisons of short decimals, where the two
agree. -/
def parseF64 (s : String) : Option ℚ :=
  let (neg, cs) : Bool × List Char :=
    match s.data with
    | '+' :: r => (false, r)
    | '-' :: r => (true, r)
    | r => (false, r)
  let mag : Option ℚ :=
    match cs.splitOn '.' with
    | [ip] => (digits_to_nat ip).map (fun n => (n : ℚ))
    | [ip, fp] =>
      if ip.isEmpty then
        (digits_to_nat fp).map (fun f => (f : ℚ) / (10 : ℚ) ^ fp.length)
      else
        match digits_to_nat ip with
        | none => none
        | some n =>
          if fp.isEmpty then some ((n : ℚ))
          else (digits_to_nat fp).map
            (fun f => (n : ℚ) + (f : ℚ) / (10 : ℚ) ^ fp.length)
    | _ => none
  mag.map (fun q => if neg then -q else q)

/-- MessageInput, a chat message with a role and content.  The struct is
referenced by the executor (crate::program::atomics::MessageInput) but its
declaration is absent from this snapshot of src.  Modelled from the spec:
"The messages field is a chat-style sequence" of role/content records. -/
structure MessageInput where
  role : String
  content : String
deriving DecidableEq, Repr

/-- InputValueType (src/src/program/io.rs 19-29). -/
inductive InputValueType where
  | Input : InputValueType
  | Read : InputValueType
  | Pop : InputValueType
  | Peek : InputValueType
  | GetAll : InputValueType
  | Size : InputValueType
  | String : InputValueType
deriving DecidableEq, Repr

/-- SearchQuery (src/src/program/io.rs 31-36); carried by InputValue but
never read by the executor. -/
structure SearchQuery where
  value_type : InputValueType
  key : String
deriving Repr

/-- InputValue (src/src/program/io.rs 10-17). -/
structure InputValue where
  value_type : InputValueType
  index : Option Nat
  search_query : Option SearchQuery
  key : String
deriving Repr

/-- Input (src/src/program/io.rs 3-8). -/
structure Input where
  name : String
  value : InputValue
  required : Bool
deriving Repr

/-- OutputType (src/src/program/io.rs 38-44). -/
inductive OutputType where
  | Write : OutputType
  | Insert : OutputType
  | Push : OutputType
deriving DecidableEq, Repr

/-- Output (src/src/program/io.rs 46-52). -/
structure Output where
  output_type : OutputType
  key : String
  value : String
deriving Repr

/-- Operator, the task effect kind.  The executor of this snapshot
dispatches on Generation, FunctionCalling, FunctionCallingRaw, Search,
Sample and End (src/src/program/executor.rs 273-385); the atomics file of
the snapshot additionally lists a Check variant that the executor never
matches, and lacks FunctionCallingRaw.  The executor is followed here. -/
inductive Operator where
  | Generation : Operator
  | FunctionCalling : Operator
  | FunctionCallingRaw : Operator
  | Search : Operator
  | Sample : Operator
  | End : Operator
deriving DecidableEq, Repr

/-- Task.  The executor reads id, name, messages, inputs, operator, outputs
and schema (src/src/program/executor.rs); the snapshot's atomics.rs
declares an older shape with a single prompt string.  Modelled from the
spec: "Task - id, name, description, messages: [role, content], operator,
inputs, outputs, schema?", matching every executor access.  Named WTask
because Lean's core library already owns the name Task. -/
structure WTask where
  id : String
  name : String
  description : String
  messages : List MessageInput
  inputs : List Input
  operator : Operator
  outputs : List Output
  schema : Option String
deriving Repr

/-- PostProcessType (src/src/program/atomics.rs 152-163). -/
inductive PostProcessType where
  | Replace : PostProcessType
  | Append : PostProcessType
  | Prepend : PostProcessType
  | Trim : PostProcessType
  | TrimStart : PostProcessType
  | TrimEnd : PostProcessType
  | ToLower : PostProcessType
  | ToUpper : PostProcessType
deriving DecidableEq, Repr

/-- TaskPostProcess (src/src/program/atomics.rs 146-151). -/
structure TaskPostProcess where
  process_type : PostProcessType
  lhs : Option String
  rhs : Option String
deriving Repr

/-- TaskOutputInput: the return-value recipe's input, a single InputValue
or a list.  The executor matches TaskOutputInput::Single / ::Multiple
(src/src/program/executor.rs 200-209); the declaration is absent from this
snapshot.  Modelled from the spec: "return_value.input is either a single
InputValue or an array". -/
inductive TaskOutputInput where
  | Single (i : InputValue) : TaskOutputInput
  | Multiple (ivs : List InputValue) : TaskOutputInput
deriving Repr

/-- TaskOutput, the return-value recipe (src/src/program/atomics.rs
139-144, with the input field widened to TaskOutputInput as the executor
requires). -/
structure TaskOutput where
  input : TaskOutputInput
  to_json : Option Bool
  post_process : Option (List TaskPostProcess)
deriving Repr

/-- Expression (src/src/program/atomics.rs 173-184). -/
inductive Expression where
  | Equal : Expression
  | NotEqual : Expression
  | Contains : Expression
  | NotContains : Expression
  | GreaterThan : Expression
  | LessThan : Expression
  | GreaterThanOrEqual : Expression
  | LessThanOrEqual : Expression
  | HaveSimilar : Expression
deriving DecidableEq, Repr

/-- Condition (src/src/program/atomics.rs 218-224). -/
structure Condition where
  input : InputValue
  expected : String
  expression : Expression
  target_if_not : String
deriving Repr

/-- Edge (src/src/program/atomics.rs 165-171). -/
structure Edge where
  source : String
  target : String
  condition : Option Condition
  fallback : Option String
deriving Repr

/-- CustomToolTemplate (src/src/program/atomics.rs 33-41); headers and body
maps are modelled as association lists. -/
structure CustomToolTemplate where
  name : String
  description : String
  url : String
  method : String
  headers : List (String × String)
  body : List (String × String)
deriving Repr

/-- Config (src/src/program/atomics.rs 43-57).  The executor reads a
custom_tools list (src/src/program/executor.rs 602) where the snapshot's
atomics.rs declares a single custom_tool; the executor's shape, an optional
vector of templates exactly as get_tools consumes it, is followed. -/
structure Config where
  max_steps : Nat
  max_time : Nat
  tools : List String
  custom_tools : Option (List CustomToolTemplate)
  max_tokens : Option Int
deriving Repr

/-- Workflow (src/src/program/workflow.rs 122-133); external memory is the
map read by ProgramMemory::read_external_memory, modelled as an association
list with distinct keys. -/
structure Workflow where
  config : Config
  external_memory : Option (List (String × MemoryInputType))
  tasks : List WTask
  steps : List Edge
  return_value : TaskOutput
deriving Repr

/-- Workflow::get_step (src/src/program/workflow.rs 180-182). -/
def Workflow.get_step (wf : Workflow) (index : Nat) : Option Edge :=
  wf.steps.get? index

/-- Workflow::get_step_by_id (src/src/program/workflow.rs 184-186): the
first edge whose source equals the task id (case-sensitive). -/
def Workflow.get_step_by_id (wf : Workflow) (task_id : String) : Option Edge :=
  wf.steps.find? (fun edge => edge.source == task_id)

/-- Workflow::get_tasks_by_id (src/src/program/workflow.rs 188-190). -/
def Workflow.get_tasks_by_id (wf : Workflow) (task_id : String) : Option WTask :=
  wf.tasks.find? (fun task => task.id == task_id)

/-- Reserved key __input (src/src/program/atomics.rs 9). -/
def R_INPUT : String := "__input"

/-- Reserved sentinel __result (src/src/program/atomics.rs 10, named
R_OUTPUT in the source). -/
def R_OUTPUT : String := "__result"

/-- Reserved edge-source terminator __end (src/src/program/atomics.rs 11). -/
def R_END : String := "__end"

/-- TOOLS, the built-in tool allowlist (src/src/program/atomics.rs 15-22). -/
def TOOLS : List String :=
  ["browserless", "jina", "serper", "duckduckgo", "stock", "scraper"]

/-- in_tools (src/src/program/atomics.rs 24-31): every requested name must
be on the allowlist. -/
def in_tools (tools : List String) : Bool :=
  tools.all (fun tool => TOOLS.contains tool)

/-- Tool identities produced by tool-list resolution; Arc<dyn Tool> values
are identified by which tool was constructed. -/
inductive BuiltTool where
  | jina : BuiltTool
  | serper : BuiltTool
  | browserless : BuiltTool
  | duckduckgo : BuiltTool
  | stock : BuiltTool
  | scraper : BuiltTool
  | custom (name : String) : BuiltTool
deriving DecidableEq, Repr

/-- Executor::get_tool_by_name (src/src/program/executor.rs 452-462). -/
def get_tool_by_name (tool : String) : BuiltTool :=
  if tool = "jina" then .jina
  else if tool = "serper" then .serper
  else if tool = "browserless" then .browserless
  else if tool = "duckduckgo" then .duckduckgo
  else if tool = "stock" then .stock
  else if tool = "scraper" then .scraper
  else .scraper

/-- Executor::get_tools (src/src/program/executor.rs 411-450): the single
literal list ["ALL"] expands to serper-or-duckduckgo (serper exactly when
the SERPER_API_KEY environment variable is set), stock and jina; any other
list is validated by in_tools and mapped by get_tool_by_name; custom tool
templates from the config are appended. -/
def get_tools (serper_key_set : Bool) (tool_names : List String)
    (custom_templates : Option (List CustomToolTemplate)) :
    Except ToolError (List BuiltTool) :=
  match
    (if tool_names.length = 1 ∧ tool_names.get? 0 = some "ALL" then
      Except.ok ((if serper_key_set then [BuiltTool.serper] else [BuiltTool.duckduckgo])
        ++ [BuiltTool.stock, BuiltTool.jina])
    else if in_tools tool_names then
      Except.ok (tool_names.map get_tool_by_name)
    else
      Except.error ToolError.ToolDoesNotExist : Except ToolError (List BuiltTool)) with
  | Except.error e => Except.error e
  | Except.ok tools =>
    match custom_templates with
    | some templates => Except.ok (tools ++ templates.map (fun t => BuiltTool.custom t.name))
    | none => Except.ok tools

/-- ProgramMemory (src/src/memory/mod.rs 15-19): the cache (key to Entry),
the stack (key to page), and the file store.  The cache and stack maps are
modelled extensionally as functions; a stack key maps to none when no page
was ever created for it, mirroring HashMap::get.  File-store entries are
(chunk, embedding) pairs with embeddings as rational vectors. -/
structure Mem where
  cache : String → Option Entry
  stack : String → Option (List Entry)
  files : List (String × List ℚ)

/-- ProgramMemory::read (src/src/memory/mod.rs 59-61): a cache lookup. -/
def Mem.read (m : Mem) (key : String) : Option Entry :=
  m.cache key

/-- ProgramMemory::write (src/src/memory/mod.rs 63-65): cache insert,
last write wins. -/
def Mem.write (m : Mem) (key : String) (value : Entry) : Mem :=
  { m with cache := fun k => if k = key then some value else m.cache k }

/-- Stack::push via ProgramMemory::push (src/src/memory/mod.rs 67-69,
src/src/memory/stack.rs 35-45): append to the page, creating it first when
absent. -/
def Mem.push (m : Mem) (key : String) (value : Entry) : Mem :=
  { m with stack := fun k =>
      if k = key then some ((m.stack key).getD [] ++ [value]) else m.stack k }

/-- Stack::pop via ProgramMemory::pop (src/src/memory/mod.rs 71-73,
src/src/memory/stack.rs 25-33): Vec::pop on the page; a missing page and an
empty page both return none, and a drained page stays present (and empty)
in the map. -/
def Mem.pop (m : Mem) (key : String) : Option Entry × Mem :=
  match m.stack key with
  | none => (none, m)
  | some page =>
    (page.getLast?,
     { m with stack := fun k => if k = key then some page.dropLast else m.stack k })

/-- Stack::peek via ProgramMemory::peek (src/src/memory/mod.rs 75-77,
src/src/memory/stack.rs 15-23): non-destructive indexed read. -/
def Mem.peek (m : Mem) (key : String) (index : Nat) : Option Entry :=
  (m.stack key).bind (fun page => page.get? index)

/-- Stack::get_all via ProgramMemory::get_all (src/src/memory/mod.rs
79-82).  Stack::get_all itself is absent from this snapshot of stack.rs;
modelled from the spec ("get_all (snapshot)") and the call sites in mod.rs
as the plain page lookup, so a missing page is none and a drained page is
some []. -/
def Mem.get_all (m : Mem) (key : String) : Option (List Entry) :=
  m.stack key

/-- ProgramMemory::size (src/src/memory/mod.rs 84-90): the page length, or
zero for unknown keys. -/
def Mem.size (m : Mem) (key : String) : Nat :=
  match m.stack key with
  | some page => page.length
  | none => 0

/-- ProgramMemory::read_external_memory (src/src/memory/mod.rs 39-56):
seed the cache from single entries and the stacks from pages. -/
def Mem.read_external (m : Mem) (external : List (String × MemoryInputType)) : Mem :=
  external.foldl (fun acc kv =>
    match kv.2 with
    | MemoryInputType.entry e => acc.write kv.1 e
    | MemoryInputType.page p => p.foldl (fun a e => a.push kv.1 e) acc) m

/-- Oracles for the collaborators the spec declares out of scope: serde's
JSON parser, compact printer and string-list encoder; the provider calls
generate_text and function_call and the two web-search tools (errors
carried as their formatted text); the embedding model; the sentence
splitter of the file store; f32 cosine similarity (an Option, as in
simsimd); the random generator behind gen_range (rand n models the draw
from 0..n, taken modulo n); the wall clock (clock i is the value of
start.elapsed().as_secs() at the i-th sampling); and the presence and
non-emptiness of the SERPER_API_KEY environment variable. -/
structure Oracles where
  json_parse : String → Option JsonVal
  json_print : JsonVal → String
  encode_strings : List String → Option String
  generate_text : List MessageInput → Option String → Option Int → Except String String
  function_call : String → List BuiltTool → Bool → Except String String
  serper_search : String → Option String → Option String → Option Nat → Except String String
  ddg_search : String → Option Nat → Except String String
  embed_doc : String → Except EmbeddingError (List ℚ)
  split_chunks : String → List String
  cosine : List ℚ → List ℚ → Option ℚ
  rand : Nat → Nat
  clock : Nat → Nat
  serper_key_set : Bool
  serper_key_nonempty : Bool

/-- The rational 0.85, the default have_similar threshold, written as an
explicit normalized fraction so that kernel reduction never needs the
scientific-literal machinery. -/
def rat85 : ℚ := ⟨17, 20, by norm_num, by norm_num⟩

/-- The rational 0.95, the fixed condition threshold, written as an
explicit normalized fraction for the same reason as rat85. -/
def rat95 : ℚ := ⟨19, 20, by norm_num, by norm_num⟩

/-- Stable insertion step for sort_by: place x before the first element it
compares le-true against, preserving the relative order of ties. -/
def insert_by {α : Type} (le : α → α → Bool) (x : α) : List α → List α
  | [] => [x]
  | y :: ys => if le x y then x :: y :: ys else y :: insert_by le x ys

/-- Stable sort modelling Rust's slice::sort_by (a stable sort by a total
comparator); implemented as insertion sort, which computes the same stable
result. -/
def sort_by {α : Type} (le : α → α → Bool) : List α → List α
  | [] => []
  | x :: xs => insert_by le x (sort_by le xs)

/-- FileSystem::brute_force_top_n (src/src/memory/files.rs 238-259):
compute the cosine similarity of the query against every stored embedding
(0.0 when the similarity is undefined), sort the indices descending by
similarity — Rust sorts with partial_cmp(..).unwrap(), a total comparison
on the rational model — and return the top n (chunk, similarity) pairs. -/
def brute_force_top_n (ext : Oracles) (entries : List (String × List ℚ))
    (query : List ℚ) (n : Nat) : List (String × ℚ) :=
  let similarities := entries.map (fun p => (ext.cosine query p.2).getD 0)
  let indices := sort_by
    (fun a b => decide (similarities.getD b 0 ≤ similarities.getD a 0))
    (List.range similarities.length)
  (indices.take n).map (fun i => ((entries.getD i ("", [])).1, similarities.getD i 0))

/-- FileSystem::add composed with ProgramMemory::insert (src/src/memory/
files.rs 156-181, src/src/memory/mod.rs 92-94): extract the raw text (the
as_str().unwrap() on a non-string JSON entry panics, modelled as none),
split into chunks, skip chunks shorter than 25 bytes, embed and append each
chunk, stopping at the first embedding failure; insert discards the error,
so the state keeps the chunks added before the failure. -/
def fs_add (ext : Oracles) (files : List (String × List ℚ)) (entry : Entry) :
    Option (List (String × List ℚ)) :=
  let doc? : Option String :=
    match entry with
    | Entry.str s => some s
    | Entry.json j =>
      match j with
      | JsonVal.str s => some s
      | _ => none
  match doc? with
  | none => none
  | some doc =>
    some ((ext.split_chunks doc).foldl (fun st sentence =>
      match st with
      | (fs, true) =>
        if sentence.utf8ByteSize < 25 then (fs, true)
        else
          match ext.embed_doc sentence with
          | Except.ok embedding => (fs ++ [(sentence, embedding)], true)
          | Except.error _ => (fs, false)
      | (fs, false) => (fs, false)) (files, true)).1

/-- FileSystem::have_similar (src/src/memory/files.rs 209-236): embed the
query (via generate_embeddings), reject a threshold outside [0, 1] with
InvalidThreshold (defaulting to 0.85 when absent), then compare the top-1
brute-force similarity strictly against the threshold.  The res[0] indexing
on an empty store panics, modelled as none. -/
def fs_have_similar (ext : Oracles) (files : List (String × List ℚ))
    (query : Entry) (threshold : Option ℚ) :
    Option (Except FileSystemError Bool) :=
  let query_embedding := ext.embed_doc (entry_to_string ext.json_print query)
  let thres_check : Except FileSystemError ℚ :=
    match threshold with
    | some t =>
      if ¬ (0 ≤ t ∧ t ≤ 1) then Except.error (FileSystemError.InvalidThreshold t)
      else Except.ok t
    | none => Except.ok rat85
  match thres_check with
  | Except.error e => some (Except.error e)
  | Except.ok thres =>
    match query_embedding with
    | Except.ok embedding =>
      match brute_force_top_n ext files embedding 1 with
      | [] => none
      | r :: _ => some (Except.ok (decide (thres < r.2)))
    | Except.error err => some (Except.error (FileSystemError.EmbeddingError err))

/-- ProgramMemory::have_similar (src/src/memory/mod.rs 104-113): wrap the
query string through Entry::try_value_or_str, call the file store, and
collapse any error to None (so the inner Option is the Rust Option<bool>);
a panic in the file store propagates as the outer none. -/
def Mem.have_similar (ext : Oracles) (m : Mem) (query : String) (threshold : Option ℚ) :
    Option (Option Bool) :=
  match fs_have_similar ext m.files (try_value_or_str ext.json_parse query) threshold with
  | none => none
  | some (Except.ok b) => some (some b)
  | some (Except.error _) => some none

/-- Expression::evaluate (src/src/program/atomics.rs 186-216): equality and
containment act on the raw strings; the four numeric comparisons parse both
operands with parse::<f64>().unwrap(), so a non-numeric operand panics
(none); HaveSimilar unwraps the memory argument (none when absent panics),
queries have_similar with threshold 0.95 and maps an error to false. -/
def Expression.evaluate (ext : Oracles) (e : Expression) (input expected : String)
    (memory : Option Mem) : Option Bool :=
  match e with
  | .Equal => some (input == expected)
  | .NotEqual => some (input != expected)
  | .Contains => some (rust_contains input expected)
  | .NotContains => some (! rust_contains input expected)
  | .GreaterThan =>
    match parseF64 input, parseF64 expected with
    | some a, some b => some (decide (b < a))
    | _, _ => none
  | .LessThan =>
    match parseF64 input, parseF64 expected with
    | some a, some b => some (decide (a < b))
    | _, _ => none
  | .GreaterThanOrEqual =>
    match parseF64 input, parseF64 expected with
    | some a, some b => some (decide (b ≤ a))
    | _, _ => none
  | .LessThanOrEqual =>
    match parseF64 input, parseF64 expected with
    | some a, some b => some (decide (a ≤ b))
    | _, _ => none
  | .HaveSimilar =>
    match memory with
    | none => none
    | some m =>
      match Mem.have_similar ext m expected (some rat95) with
      | none => none
      | some res => some (res.getD false)

/-- One post-processing step of the return-value pipeline
(src/src/program/executor.rs 219-251): replace needs both operands and
substitutes all occurrences; append and prepend need their one operand and
concatenate; the remaining step kinds are the plain string operations; a
step missing a required operand is skipped (the loop continues with the
string unchanged). -/
def apply_post_process_step (s : String) (process : TaskPostProcess) : String :=
  match process.process_type with
  | PostProcessType.Replace =>
    match process.lhs, process.rhs with
    | some l, some r => rust_replace s l r
    | _, _ => s
  | PostProcessType.Append =>
    match process.rhs with
    | some r => s ++ r
    | none => s
  | PostProcessType.Prepend =>
    match process.lhs with
    | some l => l ++ s
    | none => s
  | PostProcessType.ToLower => rust_to_lower s
  | PostProcessType.ToUpper => rust_to_upper s
  | PostProcessType.Trim => rust_trim s
  | PostProcessType.TrimStart => rust_trim_start s
  | PostProcessType.TrimEnd => rust_trim_end s

/-- The post-process pipeline applied left to right in declared order
(the for-loop of src/src/program/executor.rs 219-251). -/
def apply_post_process (s : String) (pipeline : List TaskPostProcess) : String :=
  pipeline.foldl apply_post_process_step s

/-- Executor::handle_input (src/src/program/executor.rs 478-498): resolve
one InputValue against memory; Pop mutates the stack, so the updated memory
is returned alongside the value. -/
def handle_input (ext : Oracles) (input_value : InputValue) (m : Mem) :
    MemoryScalar × Mem :=
  match input_value.value_type with
  | InputValueType.Input => (MemoryScalar.entry (m.read R_INPUT), m)
  | InputValueType.Read => (MemoryScalar.entry (m.read input_value.key), m)
  | InputValueType.Peek =>
    (MemoryScalar.entry (m.peek input_value.key (input_value.index.getD 0)), m)
  | InputValueType.GetAll => (MemoryScalar.entryVec (m.get_all input_value.key), m)
  | InputValueType.Pop =>
    let (e, m') := m.pop input_value.key
    (MemoryScalar.entry e, m')
  | InputValueType.String =>
    (MemoryScalar.entry (some (try_value_or_str ext.json_parse input_value.key)), m)
  | InputValueType.Size =>
    (MemoryScalar.entry
      (some (try_value_or_str ext.json_parse (toString (m.size input_value.key)))), m)

/-- One iteration of the output-writing loop of Executor::handle_output
(src/src/program/executor.rs 464-476): the stored data is the operator
result, or output.value parsed as an Entry when it differs from the
__result sentinel (see output_data below handle_output), and it goes to
the cache (write), the file store (insert) or the stack (push).  An insert
of a non-string JSON entry panics inside FileSystem::add, hence the
Option accumulator. -/
def output_step (ext : Oracles) (result : Entry) (acc : Option Mem)
    (output : Output) : Option Mem :=
  match acc with
  | none => none
  | some mem =>
    let data := if output.value ≠ R_OUTPUT
      then try_value_or_str ext.json_parse output.value else result
    match output.output_type with
    | OutputType.Write => some (mem.write output.key data)
    | OutputType.Insert =>
      match fs_add ext mem.files data with
      | some files' => some { mem with files := files' }
      | none => none
    | OutputType.Push => some (mem.push output.key data)

/-- Executor::handle_output (src/src/program/executor.rs 464-476): the
output-writing loop over the task's declared outputs. -/
def handle_output (ext : Oracles) (task : WTask) (result : Entry) (m : Mem) :
    Option Mem :=
  task.outputs.foldl (output_step ext result) (some m)

/-- Executor::fill_prompt (src/src/program/executor.rs 390-409): substitute
each bound input name, wrapped in braces, by its stringified value in every
message's content, preserving roles. -/
def fill_prompt (ext : Oracles) (prompt : List MessageInput)
    (input_values : List (String × MemoryScalar)) : List MessageInput :=
  prompt.map (fun message =>
    { role := message.role,
      content := input_values.foldl (fun content kv =>
        rust_replace content ("\x7b" ++ kv.1 ++ "\x7d")
          (kv.2.render ext.json_print)) message.content })

/-- Insertion into the input map: Rust HashMap::insert replaces the value
of an existing name; the model keeps insertion order for iteration. -/
def map_insert (m : List (String × MemoryScalar)) (k : String)
    (v : MemoryScalar) : List (String × MemoryScalar) :=
  if m.any (fun kv => kv.1 == k) then
    m.map (fun kv => if kv.1 == k then (k, v) else kv)
  else
    m ++ [(k, v)]

/-- The input-resolution loop of Executor::execute_task
(src/src/program/executor.rs 264-271): resolve every declared input in
order (pops mutate memory), failing with InvalidInput when a required input
resolves to nothing. -/
def resolve_inputs (ext : Oracles) (inputs : List Input) (m : Mem) :
    Mem × Except ExecutionError (List (String × MemoryScalar)) :=
  inputs.foldl (fun acc input =>
    match acc with
    | (mem, Except.error e) => (mem, Except.error e)
    | (mem, Except.ok input_map) =>
      let (value, mem') := handle_input ext input.value mem
      if input.required ∧ value.is_none then
        (mem', Except.error ExecutionError.InvalidInput)
      else
        (mem', Except.ok (map_insert input_map input.name value)))
    (m, Except.ok [])

/-- The last message's content, or the empty string (the
input.last().map(..).unwrap_or_default() idiom of the executor). -/
def last_content (messages : List MessageInput) : String :=
  ((messages.getLast?).map (fun msg => msg.content)).getD ""

/-- The random draw of Executor::sample (src/src/program/executor.rs
709-712): an index from gen_range(0..len) — uniformly distributed in Rust,
modelled as an arbitrary oracle draw reduced modulo the length — indexes
the entries; gen_range on the empty range panics, modelled as none. -/
def sample (ext : Oracles) (entries : List Entry) : Option Entry :=
  entries.get? (ext.rand entries.length % entries.length)

/-- The per-input body of the Sample operator (src/src/program/executor.rs
365-380): a non-empty list value fails with InvalidGetAllError; otherwise
the stringified value names a stack whose full contents are sampled, the
draw being appended to the prompt as ": sample"; a missing stack fails with
SamplingError; sampling an existing empty page panics. -/
def sample_fold (ext : Oracles) (m : Mem) :
    Option (Except ExecutionError String) → String × MemoryScalar →
    Option (Except ExecutionError String)
  | none, _ => none
  | some (Except.error e), _ => some (Except.error e)
  | some (Except.ok prompt), kv =>
    let v := kv.2.toVec
    if ¬ v.isEmpty then
      some (Except.error ExecutionError.InvalidGetAllError)
    else
      let stack_lookup := kv.2.render ext.json_print
      match m.get_all stack_lookup with
      | none => some (Except.error ExecutionError.SamplingError)
      | some entries =>
        match sample ext entries with
        | none => none
        | some s =>
          some (Except.ok (prompt ++ ": " ++ entry_to_string ext.json_print s))

/-- Value indexing of serde_json (search_params["key"]): object field
lookup, Null when absent or not an object. -/
def json_index (j : JsonVal) (key : String) : JsonVal :=
  match j with
  | JsonVal.obj fields =>
    match fields.find? (fun kv => kv.1 == key) with
    | some kv => kv.2
    | none => JsonVal.null
  | _ => JsonVal.null

/-- Value::as_str of serde_json. -/
def json_as_str (j : JsonVal) : Option String :=
  match j with
  | JsonVal.str s => some s
  | _ => none

/-- Value::as_u64 of serde_json, on the integral subset of the model. -/
def json_as_u64 (j : JsonVal) : Option Nat :=
  match j with
  | JsonVal.num n => if 0 ≤ n then some n.toNat else none
  | _ => none

/-- Executor::execute_task (src/src/program/executor.rs 255-388): resolve
inputs, then dispatch on the operator.  Generation fills the prompt and
calls the provider; FunctionCalling and FunctionCallingRaw resolve the tool
list — unwrap panics when resolution fails — and call the provider;
Search parses the last message as JSON search parameters and calls serper
when the SERPER_API_KEY variable is set and non-empty, duckduckgo
otherwise; Sample folds sample_fold over the input map and writes the
extended prompt; End is a no-op.  The returned memory is the post-state
(mutations before a failure persist, as the Rust memory is &mut); the outer
none is a panic. -/
def execute_task (ext : Oracles) (task : WTask) (m : Mem) (config : Config) :
    Option (Mem × Except ExecutionError Unit) :=
  match resolve_inputs ext task.inputs m with
  | (m', Except.error e) => some (m', Except.error e)
  | (m', Except.ok input_map) =>
    match task.operator with
    | Operator.Generation =>
      let prompt := fill_prompt ext task.messages input_map
      match ext.generate_text prompt task.schema config.max_tokens with
      | Except.error err =>
        some (m', Except.error (ExecutionError.GenerationFailed err))
      | Except.ok result =>
        match handle_output ext task (try_value_or_str ext.json_parse result) m' with
        | none => none
        | some m'' => some (m'', Except.ok ())
    | Operator.FunctionCalling | Operator.FunctionCallingRaw =>
      let prompt := fill_prompt ext task.messages input_map
      let raw_mode := task.operator = Operator.FunctionCallingRaw
      match get_tools ext.serper_key_set config.tools config.custom_tools with
      | Except.error _ => none
      | Except.ok tools =>
        match ext.function_call (last_content prompt) tools raw_mode with
        | Except.error err =>
          some (m', Except.error (ExecutionError.FunctionCallFailed err))
        | Except.ok result =>
          match handle_output ext task (try_value_or_str ext.json_parse result) m' with
          | none => none
          | some m'' => some (m'', Except.ok ())
    | Operator.Search =>
      let inp := fill_prompt ext task.messages input_map
      let prompt := last_content inp
      let search_params := (ext.json_parse prompt).getD (JsonVal.obj [])
      match json_as_str (json_index search_params "query") with
      | none =>
        some (m', Except.error
          (ExecutionError.WebSearchFailed "Query parameter is required"))
      | some query =>
        let search_type := json_as_str (json_index search_params "search_type")
        let lang := json_as_str (json_index search_params "lang")
        let n_results := json_as_u64 (json_index search_params "n_results")
        let result :=
          if ext.serper_key_set ∧ ext.serper_key_nonempty then
            ext.serper_search query search_type lang n_results
          else
            ext.ddg_search query n_results
        match result with
        | Except.error err =>
          some (m', Except.error (ExecutionError.WebSearchFailed err))
        | Except.ok r =>
          match handle_output ext task (try_value_or_str ext.json_parse r) m' with
          | none => none
          | some m'' => some (m'', Except.ok ())
    | Operator.Sample =>
      let inp := fill_prompt ext task.messages input_map
      let prompt0 := last_content inp
      match input_map.foldl (sample_fold ext m') (some (Except.ok prompt0)) with
      | none => none
      | some (Except.error e) => some (m', Except.error e)
      | some (Except.ok prompt) =>
        match handle_output ext task (try_value_or_str ext.json_parse prompt) m' with
        | none => none
        | some m'' => some (m'', Except.ok ())
    | Operator.End => some (m', Except.ok ())

/-- Return-value assembly (src/src/program/executor.rs 197-252): resolve
the recipe's input (a single InputValue or a list, pops mutating memory in
order), stringify, return the JSON encoding when to_json is set and the
encoding succeeds, and otherwise run the post-process pipeline on the
stringified value. -/
def assemble_return (ext : Oracles) (wf : Workflow) (m : Mem) : String :=
  let rv := wf.return_value
  let return_value : MemoryReturnType :=
    match rv.input with
    | TaskOutputInput.Single input => (handle_input ext input m).1.lift
    | TaskOutputInput.Multiple inputs =>
      MemoryReturnType.multiple
        ((inputs.foldl (fun acc input =>
          let (v, mem') := handle_input ext input acc.2
          (acc.1 ++ [v], mem')) (([] : List MemoryScalar), m)).1)
  let return_string := return_value.render ext.json_print
  let post : String :=
    apply_post_process return_string (rv.post_process.getD [])
  if rv.to_json = some true then
    match return_value.toJsonStr ext.json_print ext.encode_strings with
    | some result => result
    | none => post
  else post

/-- The two post-loop checks of Executor::execute (src/src/program/
executor.rs 183-196) followed by return-value assembly: the elapsed time is
sampled once more (sample index t_idx), and the explicit budget failures
take precedence over the assembled return value. -/
def exit_checks (ext : Oracles) (wf : Workflow) (t_idx num_steps : Nat) (m : Mem) :
    Except ExecutionError String :=
  if wf.config.max_time ≤ ext.clock t_idx then
    Except.error (ExecutionError.WorkflowFailed "Max execution time exceeded")
  else if wf.config.max_steps ≤ num_steps then
    Except.error (ExecutionError.WorkflowFailed "Max steps reached")
  else
    Except.ok (assemble_return ext wf m)

/-- The main loop of Executor::execute (src/src/program/executor.rs
107-196).  Each iteration re-checks num_steps against max_steps and — only
when that passes, as Rust's && short-circuits — samples the clock at index
t_idx against max_time; an edge with source __end, or an exhausted current
step, breaks to the post-loop checks (which sample the clock at the next
index).  Otherwise the source task runs: on success the condition (when
present) picks the next edge, on failure the fallback does, and a failure
without fallback aborts with WorkflowFailed carrying the task error's debug
text.  The fuel argument solely certifies termination: execute starts it at
max_steps and it stays at max_steps - num_steps, so the num_steps check
fires before fuel runs out; the fuel-exhausted clause repeats the post-loop
checks that the num_steps check would reach. -/
def exec_loop (ext : Oracles) (wf : Workflow) :
    Nat → Nat → Nat → Option Edge → Mem → Option (Except ExecutionError String)
  | 0, num_steps, t_idx, _, m => some (exit_checks ext wf t_idx num_steps m)
  | fuel + 1, num_steps, t_idx, current_step, m =>
    if num_steps < wf.config.max_steps then
      if ext.clock t_idx < wf.config.max_time then
        match current_step with
        | none => some (exit_checks ext wf (t_idx + 1) num_steps m)
        | some edge =>
          if edge.source = R_END then
            some (exit_checks ext wf (t_idx + 1) num_steps m)
          else
            match wf.get_tasks_by_id edge.source with
            | none =>
              some (Except.error (ExecutionError.WorkflowFailed
                ("Task with id [" ++ edge.source ++ "] not found")))
            | some task =>
              match execute_task ext task m wf.config with
              | none => none
              | some (m', Except.ok _) =>
                match edge.condition with
                | none =>
                  exec_loop ext wf fuel (num_steps + 1) (t_idx + 1)
                    (wf.get_step_by_id edge.target) m'
                | some condition =>
                  let (value, m2) := handle_input ext condition.input m'
                  let eval :=
                    if condition.expression = Expression.HaveSimilar then
                      Expression.evaluate ext condition.expression
                        (value.render ext.json_print) condition.expected (some m2)
                    else
                      Expression.evaluate ext condition.expression
                        (value.render ext.json_print) condition.expected none
                  match eval with
                  | none => none
                  | some b =>
                    exec_loop ext wf fuel (num_steps + 1) (t_idx + 1)
                      (wf.get_step_by_id
                        (if b then edge.target else condition.target_if_not)) m2
              | some (m', Except.error err) =>
                match edge.fallback with
                | some fallback =>
                  exec_loop ext wf fuel (num_steps + 1) (t_idx + 1)
                    (wf.get_step_by_id fallback) m'
                | none =>
                  some (Except.error (ExecutionError.WorkflowFailed
                    (debug_exec_error err)))
      else some (exit_checks ext wf (t_idx + 1) num_steps m)
    else some (exit_checks ext wf t_idx num_steps m)

/-- Executor::execute (src/src/program/executor.rs 83-253): seed external
memory, write the caller input under __input, and run the main loop from
edges[0] with zero steps taken and clock-sample index zero. -/
def execute (ext : Oracles) (input : Option Entry) (wf : Workflow) (m : Mem) :
    Option (Except ExecutionError String) :=
  let m1 := match wf.external_memory with
    | some external => m.read_external external
    | none => m
  let m2 := match input with
    | some entry => m1.write R_INPUT entry
    | none => m1
  exec_loop ext wf wf.config.max_steps 0 0 (wf.get_step 0) m2

/-- An empty program memory. -/
def Mem.empty : Mem :=
  { cache := fun _ => none, stack := fun _ => none, files := [] }

/-- Trivial oracle instantiation used by concrete witnesses: the JSON
parser rejects everything (every string is a raw string entry), providers
echo fixed strings, embeddings fail, the clock never advances. -/
def oracles0 : Oracles :=
  { json_parse := fun _ => none
    json_print := fun _ => ""
    encode_strings := fun _ => none
    generate_text := fun _ _ _ => Except.ok "generated"
    function_call := fun _ _ _ => Except.ok "called"
    serper_search := fun _ _ _ _ => Except.ok "serper"
    ddg_search := fun _ _ => Except.ok "ddg"
    embed_doc := fun s => Except.error (EmbeddingError.DocumentEmbedding s)
    split_chunks := fun s => [s]
    cosine := fun _ _ => none
    rand := fun _ => 0
    clock := fun _ => 0
    serper_key_set := false
    serper_key_nonempty := false }

/-- The entry an output stores: the operator result, or output.value parsed
as an Entry when it differs from the __result sentinel (the data binding of
src/src/program/executor.rs 466-469). -/
def output_data (ext : Oracles) (result : Entry) (output : Output) : Entry :=
  if output.value ≠ R_OUTPUT then try_value_or_str ext.json_parse output.value
  else result

/-- The write outputs of a task naming a given cache key, in declaration
order. -/
def writes_for (outputs : List Output) (k : String) : List Output :=
  outputs.filter (fun o => decide (o.output_type = OutputType.Write) && (o.key == k))

/-- The push outputs of a task naming a given stack key, in declaration
order. -/
def pushes_for (outputs : List Output) (k : String) : List Output :=
  outputs.filter (fun o => decide (o.output_type = OutputType.Push) && (o.key == k))

/-- Maximum of a rational list (zero for the empty list, the head-seeded
fold otherwise). -/
def list_max : List ℚ → ℚ
  | [] => 0
  | x :: xs => xs.foldl max x

/-- The top-1 cosine similarity of a query embedding against the stored
chunks: the maximum of the per-chunk similarities, each defaulting to zero
when cosine is undefined, exactly the quantities brute_force_top_n ranks. -/
def top1_sim (ext : Oracles) (entries : List (String × List ℚ)) (query : List ℚ) : ℚ :=
  list_max (entries.map (fun p => (ext.cosine query p.2).getD 0))

/-- InputValue builder used by the concrete witnesses below. -/
def iv (t : InputValueType) (k : String) : InputValue :=
  { value_type := t, index := none, search_query := none, key := k }

/-- Config used by the concrete witnesses: one step, one second. -/
def cfg_c1 : Config :=
  { max_steps := 1, max_time := 1, tools := [], custom_tools := none,
    max_tokens := none }

/-- An edge whose source is the __end sentinel. -/
def edge_end : Edge :=
  { source := "__end", target := "", condition := none, fallback := none }

/-- Return-value recipe reading the cache key k (used by witnesses). -/
def rv_read_k : TaskOutput :=
  { input := TaskOutputInput.Single (iv InputValueType.Read "k"),
    to_json := none, post_process := none }

/-- Workflow whose first edge terminates immediately at __end. -/
def wf_c1 : Workflow :=
  { config := cfg_c1, external_memory := none, tasks := [], steps := [edge_end],
    return_value := rv_read_k }

/-- Oracles whose clock advances by one second at every sampling: the loop
check reads zero seconds, the post-loop check reads one. -/
def oracles_tick : Oracles := { oracles0 with clock := fun i => i }

/-- Oracles whose text-generation provider always fails. -/
def oracles_gen_fail : Oracles :=
  { oracles0 with generate_text := fun _ _ _ => Except.error "provider down" }

/-- A generation task with no inputs and no outputs, used to exercise the
failure path. -/
def task_a : WTask :=
  { id := "A", name := "A", description := "",
    messages := [{ role := "user", content := "Say X" }],
    inputs := [], operator := Operator.Generation, outputs := [], schema := none }

/-- Edge from task A to B with fallback Z. -/
def edge_a_fb : Edge :=
  { source := "A", target := "B", condition := none, fallback := some "Z" }

/-- Edge from task A to B without fallback. -/
def edge_a_nofb : Edge :=
  { source := "A", target := "B", condition := none, fallback := none }

/-- Edge from task Z straight to __end. -/
def edge_z : Edge :=
  { source := "Z", target := "__end", condition := none, fallback := none }

/-- Config with room for several steps and a frozen-clock-sized budget. -/
def cfg_many : Config :=
  { max_steps := 5, max_time := 100, tools := [], custom_tools := none,
    max_tokens := none }

/-- Workflow for the fallback witness: task A fails, its edge falls back to
Z, and the Z edge terminates. -/
def wf_c2 : Workflow :=
  { config := cfg_many, external_memory := none, tasks := [task_a],
    steps := [edge_a_fb, edge_z], return_value := rv_read_k }

/-- The sample task of the C3 failing input: one required literal-string
input naming the stack "names", prompt "Hello", result written to "out". -/
def task_c3 : WTask :=
  { id := "S", name := "S", description := "",
    messages := [{ role := "user", content := "Hello" }],
    inputs := [{ name := "n", value := iv InputValueType.String "names",
                 required := true }],
    operator := Operator.Sample,
    outputs := [{ output_type := OutputType.Write, key := "out",
                  value := "__result" }],
    schema := none }

/-- Memory whose stack "names" exists but is empty (reachable by a push
followed by a pop, which drains the page yet leaves it present). -/
def mem_c3 : Mem :=
  { Mem.empty with stack := fun k => if k = "names" then some [] else none }

/-- Toy serde instantiation for the round-trip witness: the only valid JSON
document is the literal "null". -/
def parse_null : String → Option JsonVal :=
  fun s => if s = "null" then some JsonVal.null else none

/-- Compact printer matching parse_null. -/
def print_null : JsonVal → String :=
  fun _ => "null"

/-- The post-process pipeline of the C7 scenario: trim, lowercase, then
replace world by there. -/
def pipeline_c7 : List TaskPostProcess :=
  [{ process_type := PostProcessType.Trim, lhs := none, rhs := none },
   { process_type := PostProcessType.ToLower, lhs := none, rhs := none },
   { process_type := PostProcessType.Replace, lhs := some "world",
     rhs := some "there" }]

/-- Task for the output-frame witness: one write to "a" of the operator
result, one push to "b" of a literal value. -/
def task_c9 : WTask :=
  { id := "W", name := "W", description := "", messages := [],
    inputs := [], operator := Operator.Generation,
    outputs := [{ output_type := OutputType.Write, key := "a", value := "__result" },
                { output_type := OutputType.Push, key := "b", value := "lit" }],
    schema := none }

/-- Memory for the output-frame witness: a pre-existing cache entry under
"c" and a pre-existing stack page under "b". -/
def mem_c9 : Mem :=
  { cache := fun k => if k = "c" then some (Entry.str "old") else none,
    stack := fun k => if k = "b" then some [Entry.str "first"] else none,
    files := [] }

/-- Oracles for the file-store witness: embeddings succeed with a fixed
vector and cosine similarity is read off a small table. -/
def oracles_c10 : Oracles :=
  { oracles0 with
    embed_doc := fun _ => Except.ok [1, 0]
    cosine := fun _ b =>
      if b = [1, 0] then some (⟨9, 10, by norm_num, by norm_num⟩ : ℚ)
      else some (⟨1, 2, by norm_num, by norm_num⟩ : ℚ) }

/-- Three stored chunks for the file-store witness; the second one has the
highest similarity 9/10 under oracles_c10. -/
def files_c10 : List (String × List ℚ) :=
  [("aaa", [0, 1]), ("bbb", [1, 0]), ("ccc", [2, 2])]

/-- C4: constructing an Entry from a string first attempts a JSON parse —
success yields the Json variant, failure the String variant — and
stringification round-trips: for any serde parser and compact printer,
Entry::try_value_or_str(s).to_string() equals s whenever s is not valid
JSON (parse fails) or is valid JSON in compact form (its parse prints back
to s itself). -/
theorem c4_entry_roundtrip (parse : String → Option JsonVal)
    (print : JsonVal → String) (s : String) :
    (∀ j, parse s = some j → try_value_or_str parse s = Entry.json j) ∧
    (parse s = none → try_value_or_str parse s = Entry.str s) ∧
    (parse s = none → entry_to_string print (try_value_or_str parse s) = s) ∧
    (∀ j, parse s = some j → print j = s →
      entry_to_string print (try_value_or_str parse s) = s) := by
  refine ⟨?_, ?_, ?_, ?_⟩
  · intro j hj
    simp [try_value_or_str, hj]
  · intro h
    simp [try_value_or_str, h]
  · intro h
    simp [try_value_or_str, h, entry_to_string]
  · intro j hj hp
    simp [try_value_or_str, hj, entry_to_string, hp]

/-- Witness for c4_entry_roundtrip at the toy serde instance whose only
valid document is the literal "null": the compact JSON string "null" and
the non-JSON string "abc" both round-trip. -/
theorem c4_entry_roundtrip_witness :
    parse_null "null" = some JsonVal.null ∧
    print_null JsonVal.null = "null" ∧
    entry_to_string print_null (try_value_or_str parse_null "null") = "null" ∧
    parse_null "abc" = none ∧
    entry_to_string print_null (try_value_or_str parse_null "abc") = "abc" :=
  ⟨rfl, rfl,
   (c4_entry_roundtrip parse_null print_null "null").2.2.2 JsonVal.null rfl rfl,
   rfl,
   (c4_entry_roundtrip parse_null print_null "abc").2.2.1 rfl⟩

/-- C5 (amended): evaluating a numeric condition parses both operands as
floats and returns the corresponding comparison whenever both operands
parse; the claim's totality fails because a non-parsing operand makes the
code panic on unwrap (see c5_counterexample). -/
theorem c5_numeric_comparisons (ext : Oracles) (input expected : String)
    (a b : ℚ) (memory : Option Mem)
    (ha : parseF64 input = some a) (hb : parseF64 expected = some b) :
    Expression.evaluate ext Expression.GreaterThan input expected memory
        = some (decide (b < a)) ∧
    Expression.evaluate ext Expression.LessThan input expected memory
        = some (decide (a < b)) ∧
    Expression.evaluate ext Expression.GreaterThanOrEqual input expected memory
        = some (decide (b ≤ a)) ∧
    Expression.evaluate ext Expression.LessThanOrEqual input expected memory
        = some (decide (a ≤ b)) := by
  refine ⟨?_, ?_, ?_, ?_⟩ <;> simp [Expression.evaluate, ha, hb]

/-- Witness for c5_numeric_comparisons on the operands "2" and "1". -/
theorem c5_numeric_comparisons_witness :
    Expression.evaluate oracles0 Expression.GreaterThan "2" "1" none
        = some (decide ((1 : ℚ) < 2)) ∧
    Expression.evaluate oracles0 Expression.LessThan "2" "1" none
        = some (decide ((2 : ℚ) < 1)) ∧
    Expression.evaluate oracles0 Expression.GreaterThanOrEqual "2" "1" none
        = some (decide ((1 : ℚ) ≤ 2)) ∧
    Expression.evaluate oracles0 Expression.LessThanOrEqual "2" "1" none
        = some (decide ((2 : ℚ) ≤ 1)) :=
  c5_numeric_comparisons oracles0 "2" "1" 2 1 none (by decide) (by decide)

/-- Counterexample to C5 as stated: the predicate is not total — on the
operand "abc", which does not parse as a float, Expression::evaluate
unwraps an Err and panics (modelled as none) instead of returning a
boolean. -/
theorem c5_totality_counterexample :
    Expression.evaluate oracles0 Expression.GreaterThan "abc" "1" none = none := by
  rfl

/-- C7: return-value post-processing applies the declared steps left to
right; replace requires both operands and substitutes all occurrences,
append and prepend concatenate, the trim and case steps are the standard
string operations, and a step missing a required operand leaves the string
unchanged; in particular the documented scenario pipeline on
"  Hello World  " yields "hello there". -/
theorem c7_post_process_pipeline :
    (∀ (s : String) (p : TaskPostProcess) (ps : List TaskPostProcess),
      apply_post_process s (p :: ps) =
        apply_post_process (apply_post_process_step s p) ps) ∧
    (∀ (s : String) (r : Option String),
      apply_post_process_step s ⟨PostProcessType.Replace, none, r⟩ = s) ∧
    (∀ (s : String) (l : Option String),
      apply_post_process_step s ⟨PostProcessType.Replace, l, none⟩ = s) ∧
    (∀ (s : String) (l : Option String),
      apply_post_process_step s ⟨PostProcessType.Append, l, none⟩ = s) ∧
    (∀ (s : String) (r : Option String),
      apply_post_process_step s ⟨PostProcessType.Prepend, none, r⟩ = s) ∧
    (∀ (s l r : String),
      apply_post_process_step s ⟨PostProcessType.Replace, some l, some r⟩ =
        rust_replace s l r) ∧
    (∀ (s r : String) (l : Option String),
      apply_post_process_step s ⟨PostProcessType.Append, l, some r⟩ = s ++ r) ∧
    (∀ (s l : String) (r : Option String),
      apply_post_process_step s ⟨PostProcessType.Prepend, some l, r⟩ = l ++ s) ∧
    (∀ (s : String) (l r : Option String),
      apply_post_process_step s ⟨PostProcessType.Trim, l, r⟩ = rust_trim s ∧
      apply_post_process_step s ⟨PostProcessType.TrimStart, l, r⟩ = rust_trim_start s ∧
      apply_post_process_step s ⟨PostProcessType.TrimEnd, l, r⟩ = rust_trim_end s ∧
      apply_post_process_step s ⟨PostProcessType.ToLower, l, r⟩ = rust_to_lower s ∧
      apply_post_process_step s ⟨PostProcessType.ToUpper, l, r⟩ = rust_to_upper s) ∧
    rust_replace "world world" "world" "there" = "there there" ∧
    apply_post_process "  Hello World  " pipeline_c7 = "hello there" := by
  refine ⟨?_, ?_, ?_, ?_, ?_, ?_, ?_, ?_, ?_, ?_, ?_⟩
  · intro s p ps
    rfl
  · intro s r
    cases r <;> rfl
  · intro s l
    cases l <;> rfl
  · intro s l
    rfl
  · intro s r
    rfl
  · intro s l r
    rfl
  · intro s r l
    rfl
  · intro s l r
    rfl
  · intro s l r
    exact ⟨rfl, rfl, rfl, rfl, rfl⟩
  · rfl
  · rfl

/-- C3 evaluated at the failing input: the stack "names" exists and is
empty, the sample task's literal input resolves to that stack, and
execute_task panics (gen_range on the empty range inside Executor::sample)
instead of failing with SamplingError as the claim — and the SamplingError
display text "Error sampling because value array is empty" — prescribe.
The third conjunct shows the genuinely missing stack does fail with
SamplingError, isolating the empty-page case as the divergence. -/
theorem c3_sample_empty_stack_panic :
    mem_c3.get_all "names" = some [] ∧
    execute_task oracles0 task_c3 mem_c3 cfg_many = none ∧
    (execute_task oracles0 task_c3 Mem.empty cfg_many).map Prod.snd =
      some (Except.error ExecutionError.SamplingError) := by
  refine ⟨rfl, rfl, rfl⟩

/-- C8 (amended): FileSystem::have_similar rejects every threshold outside
the unit interval with InvalidThreshold before consulting the store; a
have_similar condition, however, always passes the fixed threshold 0.95,
and when the underlying call fails the condition evaluates to false (the
target_if_not branch) rather than failing the workflow. -/
theorem c8_invalid_threshold (ext : Oracles)
    (files : List (String × List ℚ)) (q : Entry) (t : ℚ)
    (ht : ¬ (0 ≤ t ∧ t ≤ 1)) (input expected : String) (m : Mem)
    (herr : Mem.have_similar ext m expected (some rat95) = some none) :
    fs_have_similar ext files q (some t) =
      some (Except.error (FileSystemError.InvalidThreshold t)) ∧
    Expression.evaluate ext Expression.HaveSimilar input expected (some m) =
      some false := by
  constructor
  · simp [fs_have_similar, ht]
  · simp [Expression.evaluate, herr]

/-- Witness for c8_invalid_threshold: the threshold 3/2 is rejected with
InvalidThreshold, and with the failing embedder of oracles0 the underlying
call errors while the condition still evaluates to false. -/
theorem c8_invalid_threshold_witness :
    fs_have_similar oracles0 [] (Entry.str "q") (some (3 / 2)) =
      some (Except.error (FileSystemError.InvalidThreshold (3 / 2))) ∧
    Expression.evaluate oracles0 Expression.HaveSimilar "a" "b" (some Mem.empty) =
      some false :=
  c8_invalid_threshold oracles0 [] (Entry.str "q") (3 / 2) (by norm_num)
    "a" "b" Mem.empty rfl

/-- Counterexample to C8 as stated: conditions cannot fail with
InvalidThreshold — Expression::evaluate hard-codes the in-range threshold
0.95 and maps every have_similar failure to Some(false) via unwrap_or.
Concretely, with the always-failing embedder the underlying
ProgramMemory::have_similar call returns None (an error), yet the
condition evaluates to the false branch instead of failing. -/
theorem c8_condition_counterexample :
    Mem.have_similar oracles0 Mem.empty "b" (some rat95) = some none ∧
    Expression.evaluate oracles0 Expression.HaveSimilar "a" "b" (some Mem.empty) =
      some false := by
  refine ⟨rfl, rfl⟩

/-- C1 (amended): whenever the current edge's source is the __end sentinel
(and the loop's bounds checks passed for this iteration), the main loop
stops: it never fails with "Max steps reached", and it returns Ok with the
assembled return value provided the post-loop elapsed-time sample is still
below max_time — but when that second clock sample has reached max_time,
execute returns WorkflowFailed "Max execution time exceeded" even though
__end was reached (see c1_end_counterexample). -/
theorem c1_end_terminates (ext : Oracles) (wf : Workflow) (fuel num_steps t_idx : Nat)
    (edge : Edge) (m : Mem)
    (h_end : edge.source = R_END)
    (h_steps : num_steps < wf.config.max_steps)
    (h_clock : ext.clock t_idx < wf.config.max_time) :
    (exec_loop ext wf (fuel + 1) num_steps t_idx (some edge) m =
      if wf.config.max_time ≤ ext.clock (t_idx + 1) then
        some (Except.error (ExecutionError.WorkflowFailed "Max execution time exceeded"))
      else
        some (Except.ok (assemble_return ext wf m))) ∧
    exec_loop ext wf (fuel + 1) num_steps t_idx (some edge) m ≠
      some (Except.error (ExecutionError.WorkflowFailed "Max steps reached")) := by
  have h1 : exec_loop ext wf (fuel + 1) num_steps t_idx (some edge) m =
      some (exit_checks ext wf (t_idx + 1) num_steps m) := by
    simp only [exec_loop]
    rw [if_pos h_steps, if_pos h_clock, if_pos h_end]
  have h2 : exit_checks ext wf (t_idx + 1) num_steps m =
      if wf.config.max_time ≤ ext.clock (t_idx + 1) then
        Except.error (ExecutionError.WorkflowFailed "Max execution time exceeded")
      else Except.ok (assemble_return ext wf m) := by
    unfold exit_checks
    by_cases ht : wf.config.max_time ≤ ext.clock (t_idx + 1)
    · rw [if_pos ht, if_pos ht]
    · rw [if_neg ht, if_neg ht, if_neg (by omega)]
  constructor
  · rw [h1, h2]
    by_cases ht : wf.config.max_time ≤ ext.clock (t_idx + 1)
    · rw [if_pos ht, if_pos ht]
    · rw [if_neg ht, if_neg ht]
  · rw [h1, h2]
    by_cases ht : wf.config.max_time ≤ ext.clock (t_idx + 1)
    · rw [if_pos ht]
      simp
    · rw [if_neg ht]
      simp

/-- Witness for c1_end_terminates with the frozen clock of oracles0: the
one-edge workflow wf_c1 breaks at __end and the loop returns Ok with the
(empty) assembled return value. -/
theorem c1_end_terminates_witness :
    exec_loop oracles0 wf_c1 (0 + 1) 0 0 (some edge_end) Mem.empty =
      some (Except.ok (assemble_return oracles0 wf_c1 Mem.empty)) ∧
    exec_loop oracles0 wf_c1 (0 + 1) 0 0 (some edge_end) Mem.empty ≠
      some (Except.error (ExecutionError.WorkflowFailed "Max steps reached")) := by
  have h := c1_end_terminates oracles0 wf_c1 0 0 0 edge_end Mem.empty rfl
    (by decide) (by decide)
  refine ⟨?_, h.2⟩
  rw [h.1, if_neg (by decide)]

/-- Counterexample to C1 as stated: execution of wf_c1 — whose only edge
has source __end, so the run reaches __end immediately — still returns the
WorkflowFailed "Max execution time exceeded" budget error under a clock
that reads 0 seconds at the loop check and 1 second at the post-loop check
(max_time is 1), because the code re-samples the elapsed time after the
loop breaks. -/
theorem c1_end_counterexample :
    wf_c1.steps = [edge_end] ∧ edge_end.source = "__end" ∧
    execute oracles_tick none wf_c1 Mem.empty =
      some (Except.error (ExecutionError.WorkflowFailed "Max execution time exceeded")) := by
  refine ⟨rfl, rfl, rfl⟩

/-- C2: when the task of the current edge fails, the interpreter continues
with the first edge whose source equals the fallback id when the edge
carries one (Workflow::get_step_by_id is a first-match find), and otherwise
execute immediately returns WorkflowFailed carrying the task error's debug
text. -/
theorem c2_fallback (ext : Oracles) (wf : Workflow) (fuel num_steps t_idx : Nat)
    (edge : Edge) (m : Mem) (task : WTask) (m' : Mem) (err : ExecutionError)
    (h_steps : num_steps < wf.config.max_steps)
    (h_clock : ext.clock t_idx < wf.config.max_time)
    (h_end : ¬ edge.source = R_END)
    (h_task : wf.get_tasks_by_id edge.source = some task)
    (h_fail : execute_task ext task m wf.config = some (m', Except.error err)) :
    (∀ fb, edge.fallback = some fb →
      exec_loop ext wf (fuel + 1) num_steps t_idx (some edge) m =
        exec_loop ext wf fuel (num_steps + 1) (t_idx + 1) (wf.get_step_by_id fb) m') ∧
    (edge.fallback = none →
      exec_loop ext wf (fuel + 1) num_steps t_idx (some edge) m =
        some (Except.error (ExecutionError.WorkflowFailed (debug_exec_error err)))) ∧
    (∀ fb, wf.get_step_by_id fb = wf.steps.find? (fun e => e.source == fb)) := by
  have h1 : exec_loop ext wf (fuel + 1) num_steps t_idx (some edge) m =
      (match edge.fallback with
        | some fallback =>
          exec_loop ext wf fuel (num_steps + 1) (t_idx + 1) (wf.get_step_by_id fallback) m'
        | none =>
          some (Except.error (ExecutionError.WorkflowFailed (debug_exec_error err)))) := by
    simp only [exec_loop]
    rw [if_pos h_steps, if_pos h_clock, if_neg h_end, h_task]
    simp only [h_fail]
  refine ⟨?_, ?_, fun _ => rfl⟩
  · intro fb hfb
    rw [h1, hfb]
  · intro hnone
    rw [h1, hnone]

/-- Witness for c2_fallback: in wf_c2 the generation task A fails under the
always-failing provider, and the loop continues at the first edge whose
source is the fallback id Z. -/
theorem c2_fallback_witness :
    execute_task oracles_gen_fail task_a Mem.empty cfg_many =
      some (Mem.empty, Except.error (ExecutionError.GenerationFailed "provider down")) ∧
    exec_loop oracles_gen_fail wf_c2 (4 + 1) 0 0 (some edge_a_fb) Mem.empty =
      exec_loop oracles_gen_fail wf_c2 4 (0 + 1) (0 + 1)
        (wf_c2.get_step_by_id "Z") Mem.empty ∧
    wf_c2.get_step_by_id "Z" = some edge_z := by
  refine ⟨rfl, ?_, rfl⟩
  exact (c2_fallback oracles_gen_fail wf_c2 4 0 0 edge_a_fb Mem.empty task_a
    Mem.empty (ExecutionError.GenerationFailed "provider down")
    (by decide) (by decide) (by decide) rfl rfl).1 "Z" rfl

/-- C6: tool-list resolution is a deterministic function of the requested
names, the custom templates and the serper-key presence bit: the single
literal list ["ALL"] expands to exactly serper-or-duckduckgo (serper
exactly when the key is set), stock and jina, followed by the custom
tools; any other list succeeds with the name-mapped tools exactly when
every name is on the allowlist (that is what in_tools checks), and fails
with ToolDoesNotExist otherwise. -/
theorem c6_tool_resolution (serper_key_set : Bool) (names : List String)
    (custom : Option (List CustomToolTemplate)) :
    (names = ["ALL"] →
      get_tools serper_key_set names custom =
        Except.ok ((if serper_key_set then [BuiltTool.serper] else [BuiltTool.duckduckgo])
          ++ [BuiltTool.stock, BuiltTool.jina]
          ++ (custom.getD []).map (fun t => BuiltTool.custom t.name))) ∧
    (names ≠ ["ALL"] →
      (in_tools names = true →
        get_tools serper_key_set names custom =
          Except.ok (names.map get_tool_by_name
            ++ (custom.getD []).map (fun t => BuiltTool.custom t.name))) ∧
      (in_tools names = false →
        get_tools serper_key_set names custom =
          Except.error ToolError.ToolDoesNotExist)) ∧
    (in_tools names = true ↔ ∀ n ∈ names, n ∈ TOOLS) := by
  refine ⟨?_, ?_, ?_⟩
  · intro h
    subst h
    cases custom <;> simp [get_tools, List.append_assoc]
  · intro hne
    have hcond : ¬ (names.length = 1 ∧ names[0]? = some "ALL") := by
      rintro ⟨hl, hg⟩
      apply hne
      match names, hl with
      | [x], _ =>
        simp at hg
        rw [hg]
    constructor
    · intro hin
      cases custom <;>
        simp [get_tools, hcond, hin]
    · intro hnotin
      cases custom <;>
        simp [get_tools, hcond, hnotin]
  · simp only [in_tools, List.all_eq_true, List.contains_iff_exists_mem_beq]
    constructor
    · intro h n hn
      obtain ⟨a, ha, hb⟩ := h n hn
      rw [show n = a from by simpa using hb]
      exact ha
    · intro h n hn
      exact ⟨n, h n hn, by simp⟩

/-- Witness for c6_tool_resolution: with the key set, ["ALL"] expands to
serper, stock, jina; the list ["jina", "stock"] resolves by name; the list
["jina", "ALL"] contains a name off the allowlist and is rejected. -/
theorem c6_tool_resolution_witness :
    get_tools true ["ALL"] none =
      Except.ok [BuiltTool.serper, BuiltTool.stock, BuiltTool.jina] ∧
    get_tools false ["jina", "stock"] none =
      Except.ok [BuiltTool.jina, BuiltTool.stock] ∧
    get_tools false ["jina", "ALL"] none =
      Except.error ToolError.ToolDoesNotExist := by
  refine ⟨?_, ?_, ?_⟩
  · have h := (c6_tool_resolution true ["ALL"] none).1 rfl
    simpa using h
  · have h := ((c6_tool_resolution false ["jina", "stock"] none).2.1
      (by decide)).1 (by decide)
    simpa using h
  · exact ((c6_tool_resolution false ["jina", "ALL"] none).2.1
      (by decide)).2 (by decide)

/-- Frame lemma for the output-writing loop: over any output list that only
writes and pushes, the loop never panics, leaves the file store untouched,
sets each written cache key to the data of its last write, appends exactly
the pushed entries to each pushed stack key, and leaves every other cache
key and stack key unchanged. -/
theorem output_fold_frame (ext : Oracles) (result : Entry) (outs : List Output) :
    ∀ (m : Mem),
    (∀ o ∈ outs, o.output_type = OutputType.Write ∨ o.output_type = OutputType.Push) →
    ∃ m', outs.foldl (output_step ext result) (some m) = some m' ∧
      m'.files = m.files ∧
      (∀ k, m'.cache k =
        (match (writes_for outs k).getLast? with
         | some w => some (output_data ext result w)
         | none => m.cache k)) ∧
      (∀ k, m'.stack k =
        (match pushes_for outs k with
         | [] => m.stack k
         | ps => some ((m.stack k).getD [] ++ ps.map (output_data ext result)))) := by
  induction outs with
  | nil =>
    intro m _
    refine ⟨m, rfl, rfl, ?_, ?_⟩
    · intro k
      simp [writes_for]
    · intro k
      simp [pushes_for]
  | cons o rest ih =>
    intro m h
    have ho := h o (List.mem_cons_self o rest)
    have hrest := fun o' ho' => h o' (List.mem_cons_of_mem o ho')
    rcases ho with hw | hp
    · -- o is a write
      have hstep : output_step ext result (some m) o =
          some (m.write o.key (output_data ext result o)) := by
        simp [output_step, hw, output_data]
      obtain ⟨m', hfold, hfiles, hcache, hstack⟩ :=
        ih (m.write o.key (output_data ext result o)) hrest
      refine ⟨m', ?_, ?_, ?_, ?_⟩
      · rw [List.foldl_cons, hstep]
        exact hfold
      · rw [hfiles]
        rfl
      · intro k
        rw [hcache k]
        by_cases hk : o.key = k
        · have hwf : writes_for (o :: rest) k = o :: writes_for rest k := by
            simp [writes_for, List.filter_cons, hw, hk]
          rw [hwf]
          cases hwr : writes_for rest k with
          | nil =>
            simp [hwr, Mem.write, hk]
          | cons a as =>
            rw [List.getLast?_cons_cons]
            cases hlast : (a :: as).getLast? with
            | none =>
              simp at hlast
            | some w =>
              rfl
        · have hwf : writes_for (o :: rest) k = writes_for rest k := by
            have : (o.key == k) = false := by
              simp [hk]
            simp [writes_for, List.filter_cons, this]
          rw [hwf]
          have hk' : ¬ (k = o.key) := fun h' => hk h'.symm
          have hmw : (m.write o.key (output_data ext result o)).cache k = m.cache k := by
            simp [Mem.write, hk']
          cases hwr : writes_for rest k with
          | nil => simp [hmw]
          | cons a as =>
            cases hlast : (a :: as).getLast? with
            | none => simp at hlast
            | some w => rfl
      · intro k
        rw [hstack k]
        have hpf : pushes_for (o :: rest) k = pushes_for rest k := by
          simp [pushes_for, List.filter_cons, hw]
        rw [hpf]
        rfl
    · -- o is a push
      have hstep : output_step ext result (some m) o =
          some (m.push o.key (output_data ext result o)) := by
        simp [output_step, hp, output_data]
      obtain ⟨m', hfold, hfiles, hcache, hstack⟩ :=
        ih (m.push o.key (output_data ext result o)) hrest
      refine ⟨m', ?_, ?_, ?_, ?_⟩
      · rw [List.foldl_cons, hstep]
        exact hfold
      · rw [hfiles]
        rfl
      · intro k
        rw [hcache k]
        have hwf : writes_for (o :: rest) k = writes_for rest k := by
          simp [writes_for, List.filter_cons, hp]
        rw [hwf]
        rfl
      · intro k
        rw [hstack k]
        by_cases hk : o.key = k
        · have hpf : pushes_for (o :: rest) k = o :: pushes_for rest k := by
            simp [pushes_for, List.filter_cons, hp, hk]
          rw [hpf]
          have hms : (m.push o.key (output_data ext result o)).stack k =
              some ((m.stack k).getD [] ++ [output_data ext result o]) := by
            simp [Mem.push, hk]
          cases hpr : pushes_for rest k with
          | nil =>
            simp [hms]
          | cons a as =>
            simp [hms, List.append_assoc]
        · have hpf : pushes_for (o :: rest) k = pushes_for rest k := by
            have : (o.key == k) = false := by
              simp [hk]
            simp [pushes_for, List.filter_cons, this]
          rw [hpf]
          have hk' : ¬ (k = o.key) := fun h' => hk h'.symm
          have hms : (m.push o.key (output_data ext result o)).stack k = m.stack k := by
            simp [Mem.push, hk']
          cases hpr : pushes_for rest k with
          | nil => simp [hms]
          | cons a as => simp [hms]

/-- C9: for a task whose outputs are all writes or pushes, writing the task
result never panics and mutates only the named locations: the file store is
unchanged, each cache key named by a write holds the data of its last write
(the operator result, or output.value parsed as an Entry when it differs
from __result — that is output_data), each stack key named by a push gains
exactly its pushed entries in order, and every cache key with no write and
every stack key with no push keeps its previous value. -/
theorem c9_output_frame (ext : Oracles) (task : WTask) (result : Entry) (m : Mem)
    (h : ∀ o ∈ task.outputs,
      o.output_type = OutputType.Write ∨ o.output_type = OutputType.Push) :
    ∃ m', handle_output ext task result m = some m' ∧
      m'.files = m.files ∧
      (∀ k, (writes_for task.outputs k).getLast? = none → m'.cache k = m.cache k) ∧
      (∀ k w, (writes_for task.outputs k).getLast? = some w →
        m'.cache k = some (output_data ext result w)) ∧
      (∀ k, pushes_for task.outputs k = [] → m'.stack k = m.stack k) ∧
      (∀ k, pushes_for task.outputs k ≠ [] →
        m'.stack k = some ((m.stack k).getD [] ++
          (pushes_for task.outputs k).map (output_data ext result))) := by
  obtain ⟨m', hfold, hfiles, hcache, hstack⟩ :=
    output_fold_frame ext result task.outputs m h
  refine ⟨m', hfold, hfiles, ?_, ?_, ?_, ?_⟩
  · intro k hk
    rw [hcache k, hk]
  · intro k w hk
    rw [hcache k, hk]
  · intro k hk
    rw [hstack k, hk]
  · intro k hk
    rw [hstack k]
    cases hpr : pushes_for task.outputs k with
    | nil => exact absurd hpr hk
    | cons a as => rfl

/-- Witness for c9_output_frame on the two-output task task_c9 and the
populated memory mem_c9: the hypothesis holds and the write never panics;
the cache key "a" gets the result, the untouched cache key "c" and stack
key "x" keep their values, and the stack "b" gains exactly the pushed
literal. -/
theorem c9_output_frame_witness :
    (∀ o ∈ task_c9.outputs,
      o.output_type = OutputType.Write ∨ o.output_type = OutputType.Push) ∧
    (handle_output oracles0 task_c9 (Entry.str "res") mem_c9).isSome = true := by
  refine ⟨by decide, ?_⟩
  obtain ⟨m', hfold, -⟩ :=
    c9_output_frame oracles0 task_c9 (Entry.str "res") mem_c9 (by decide)
  rw [hfold]
  rfl

/-- Membership is preserved by the insertion step of sort_by. -/
theorem mem_insert_by {α : Type} (le : α → α → Bool) (x a : α) :
    ∀ l : List α, a ∈ insert_by le x l ↔ a = x ∨ a ∈ l := by
  intro l
  induction l with
  | nil => simp [insert_by]
  | cons y ys ih =>
    by_cases h : le x y
    · simp [insert_by, h]
    · simp only [insert_by, h, Bool.false_eq_true, if_false, List.mem_cons, ih]
      tauto

/-- The insertion step of sort_by grows the length by one. -/
theorem length_insert_by {α : Type} (le : α → α → Bool) (x : α) :
    ∀ l : List α, (insert_by le x l).length = l.length + 1 := by
  intro l
  induction l with
  | nil => rfl
  | cons y ys ih => by_cases h : le x y <;> simp [insert_by, h, ih]

/-- sort_by preserves the length. -/
theorem length_sort_by {α : Type} (le : α → α → Bool) :
    ∀ l : List α, (sort_by le l).length = l.length := by
  intro l
  induction l with
  | nil => rfl
  | cons x xs ih => simp [sort_by, length_insert_by, ih]

/-- sort_by preserves membership. -/
theorem mem_sort_by {α : Type} (le : α → α → Bool) (a : α) :
    ∀ l : List α, a ∈ sort_by le l ↔ a ∈ l := by
  intro l
  induction l with
  | nil => simp [sort_by]
  | cons x xs ih => simp [sort_by, mem_insert_by, ih]

/-- The head of a descending key-sort comes from the list and carries the
largest key. -/
theorem sort_by_head_max (key : Nat → ℚ) :
    ∀ (l : List Nat) (h : Nat) (t : List Nat),
      sort_by (fun a b => decide (key b ≤ key a)) l = h :: t →
      h ∈ l ∧ ∀ a ∈ l, key a ≤ key h := by
  intro l
  induction l with
  | nil =>
    intro h t hs
    simp [sort_by] at hs
  | cons x xs ih =>
    intro h t hs
    simp only [sort_by] at hs
    cases hsx : sort_by (fun a b => decide (key b ≤ key a)) xs with
    | nil =>
      rw [hsx] at hs
      simp only [insert_by, List.cons.injEq] at hs
      obtain ⟨hh, -⟩ := hs
      subst hh
      refine ⟨List.mem_cons_self x xs, ?_⟩
      intro a ha
      rcases List.mem_cons.mp ha with h' | h'
      · subst h'
        exact le_refl _
      · exfalso
        have := (mem_sort_by (fun a b => decide (key b ≤ key a)) a xs).mpr h'
        rw [hsx] at this
        simp at this
    | cons y ys =>
      rw [hsx] at hs
      obtain ⟨hy_mem, hy_max⟩ := ih y ys hsx
      by_cases hxy : key y ≤ key x
      · rw [show insert_by (fun a b => decide (key b ≤ key a)) x (y :: ys) =
            x :: y :: ys from by simp [insert_by, hxy]] at hs
        obtain ⟨hh, -⟩ := List.cons.injEq x (y :: ys) h t ▸ hs
        subst hh
        refine ⟨List.mem_cons_self x xs, ?_⟩
        intro a ha
        rcases List.mem_cons.mp ha with h' | h'
        · subst h'
          exact le_refl _
        · exact le_trans (hy_max a h') hxy
      · rw [show insert_by (fun a b => decide (key b ≤ key a)) x (y :: ys) =
            y :: insert_by (fun a b => decide (key b ≤ key a)) x ys from by
              simp [insert_by, hxy]] at hs
        obtain ⟨hh, -⟩ := List.cons.injEq y
          (insert_by (fun a b => decide (key b ≤ key a)) x ys) h t ▸ hs
        subst hh
        refine ⟨List.mem_cons_of_mem x hy_mem, ?_⟩
        intro a ha
        rcases List.mem_cons.mp ha with h' | h'
        · subst h'
          exact (not_le.mp hxy).le
        · exact hy_max a h'

/-- A fold of max is at least its seed. -/
theorem foldl_max_ge_init : ∀ (l : List ℚ) (a : ℚ), a ≤ l.foldl max a := by
  intro l
  induction l with
  | nil => intro a; exact le_refl a
  | cons x xs ih =>
    intro a
    exact le_trans (le_max_left a x) (ih (max a x))

/-- A fold of max dominates every list element. -/
theorem foldl_max_ge_mem : ∀ (l : List ℚ) (a x : ℚ), x ∈ l → x ≤ l.foldl max a := by
  intro l
  induction l with
  | nil =>
    intro a x hx
    simp at hx
  | cons y ys ih =>
    intro a x hx
    rcases List.mem_cons.mp hx with h | h
    · subst h
      exact le_trans (le_max_right a x) (foldl_max_ge_init ys (max a x))
    · exact ih (max a y) x h

/-- list_max dominates every element. -/
theorem list_max_ge (l : List ℚ) (x : ℚ) (hx : x ∈ l) : x ≤ list_max l := by
  cases l with
  | nil => simp at hx
  | cons y ys =>
    rcases List.mem_cons.mp hx with h | h
    · subst h
      exact foldl_max_ge_init ys x
    · exact foldl_max_ge_mem ys y x h

/-- A fold of max is the seed or a list element. -/
theorem foldl_max_mem : ∀ (l : List ℚ) (a : ℚ), l.foldl max a = a ∨ l.foldl max a ∈ l := by
  intro l
  induction l with
  | nil =>
    intro a
    left
    rfl
  | cons y ys ih =>
    intro a
    rcases ih (max a y) with h | h
    · rcases max_choice a y with hm | hm
      · left
        rw [List.foldl_cons, h, hm]
      · right
        rw [List.foldl_cons, h, hm]
        exact List.mem_cons_self y ys
    · right
      exact List.mem_cons_of_mem y h

/-- list_max of a nonempty list is an element of the list. -/
theorem list_max_mem (l : List ℚ) (h : l ≠ []) : list_max l ∈ l := by
  cases l with
  | nil => exact absurd rfl h
  | cons y ys =>
    rcases foldl_max_mem ys y with h' | h'
    · rw [show list_max (y :: ys) = ys.foldl max y from rfl, h']
      exact List.mem_cons_self y ys
    · rw [show list_max (y :: ys) = ys.foldl max y from rfl]
      exact List.mem_cons_of_mem y h'

/-- Indexing the range of a list's length by getD reproduces the list. -/
theorem range_map_getD (l : List ℚ) :
    (List.range l.length).map (fun i => l.getD i 0) = l := by
  induction l with
  | nil => rfl
  | cons a l' ih =>
    rw [List.length_cons, List.range_succ_eq_map]
    simp only [List.map_cons, List.map_map]
    have hcomp : ((fun i => (a :: l').getD i 0) ∘ Nat.succ) = fun i => l'.getD i 0 := by
      funext i
      rfl
    rw [hcomp, ih]
    rfl

/-- The top-1 result of the brute-force ranking of a nonempty store is a
single pair whose similarity is the maximum similarity, top1_sim. -/
theorem brute_force_top1 (ext : Oracles) (entries : List (String × List ℚ))
    (query : List ℚ) (hne : entries ≠ []) :
    ∃ c, brute_force_top_n ext entries query 1 =
      [(c, top1_sim ext entries query)] := by
  simp only [brute_force_top_n, top1_sim]
  set sims := entries.map (fun p => (ext.cosine query p.2).getD 0) with hsims
  have hpos : 0 < sims.length := by
    rw [hsims]
    simp [List.length_pos, hne]
  cases hs : sort_by (fun a b => decide (sims.getD b 0 ≤ sims.getD a 0))
      (List.range sims.length) with
  | nil =>
    exfalso
    have hlen := length_sort_by (fun a b => decide (sims.getD b 0 ≤ sims.getD a 0))
      (List.range sims.length)
    rw [hs] at hlen
    simp only [List.length_nil, List.length_range] at hlen
    omega
  | cons h0 t =>
    obtain ⟨hmem, hmax⟩ := sort_by_head_max (fun i => sims.getD i 0)
      (List.range sims.length) h0 t hs
    have hh0lt : h0 < sims.length := List.mem_range.mp hmem
    have hhead_le : sims.getD h0 0 ≤ list_max sims := by
      apply list_max_ge
      rw [List.getD_eq_getElem _ _ hh0lt]
      exact List.getElem_mem hh0lt
    have hmax_le : list_max sims ≤ sims.getD h0 0 := by
      have hmm := list_max_mem sims (by rw [hsims]; simp [hne])
      obtain ⟨j, hj, hget⟩ := List.mem_iff_getElem.mp hmm
      have := hmax j (List.mem_range.mpr hj)
      rw [List.getD_eq_getElem _ _ hj, hget] at this
      exact this
    refine ⟨(entries.getD h0 ("", [])).1, ?_⟩
    simp only [List.take_succ_cons, List.take_zero, List.map_cons, List.map_nil,
      List.cons.injEq, and_true, Prod.mk.injEq, true_and]
    have heq := le_antisymm hhead_le hmax_le
    rw [List.getD_eq_getElem _ _ hh0lt] at heq
    rw [List.getD_eq_getElem _ _ hh0lt]
    exact heq

/-- C10: have_similar returns a boolean only when the file store is
non-empty; with at least one stored chunk and a threshold inside [0, 1] the
call is total (no panic), and when the query embedding succeeds it returns
Ok(true) exactly when the top-1 cosine similarity strictly exceeds the
threshold; the non-emptiness precondition is necessary, because on an empty
store the top-1 lookup indexes the first element of the empty brute-force
result list and panics. -/
theorem c10_have_similar_store (ext : Oracles) (files : List (String × List ℚ))
    (q : Entry) (t : ℚ) (h0 : 0 ≤ t) (h1 : t ≤ 1) :
    (∀ th b, fs_have_similar ext files q th = some (Except.ok b) → files ≠ []) ∧
    (files ≠ [] → (fs_have_similar ext files q (some t)).isSome = true) ∧
    (∀ qe, files ≠ [] →
      ext.embed_doc (entry_to_string ext.json_print q) = Except.ok qe →
      fs_have_similar ext files q (some t) =
        some (Except.ok (decide (t < top1_sim ext files qe)))) ∧
    (∀ qe, files = [] →
      ext.embed_doc (entry_to_string ext.json_print q) = Except.ok qe →
      fs_have_similar ext files q (some t) = none) := by
  have hvalid : ¬ ¬ (0 ≤ t ∧ t ≤ 1) := not_not.mpr ⟨h0, h1⟩
  refine ⟨?_, ?_, ?_, ?_⟩
  · intro th b hb hfe
    subst hfe
    revert hb
    unfold fs_have_similar
    cases th with
    | none =>
      cases hemb : ext.embed_doc (entry_to_string ext.json_print q) with
      | ok qe =>
        simp [brute_force_top_n, sort_by]
      | error e =>
        simp
    | some t' =>
      by_cases hv : ¬ (0 ≤ t' ∧ t' ≤ 1)
      · simp [hv]
      · cases hemb : ext.embed_doc (entry_to_string ext.json_print q) with
        | ok qe =>
          simp [hv, brute_force_top_n, sort_by]
        | error e =>
          simp [hv]
  · intro hne
    unfold fs_have_similar
    cases hemb : ext.embed_doc (entry_to_string ext.json_print q) with
    | ok qe =>
      obtain ⟨c, hc⟩ := brute_force_top1 ext files qe hne
      simp [hvalid, hc]
    | error e =>
      simp [hvalid]
  · intro qe hne hemb
    unfold fs_have_similar
    obtain ⟨c, hc⟩ := brute_force_top1 ext files qe hne
    simp [hvalid, hemb, hc]
  · intro qe hfe hemb
    subst hfe
    unfold fs_have_similar
    simp [hvalid, hemb, brute_force_top_n, sort_by]

/-- Witness for c10_have_similar_store at the three-chunk store files_c10
under oracles_c10 (embedding [1, 0], top-1 similarity 9/10) with the
threshold rat95: the call returns the comparison of rat95 against the top-1
similarity, and the same call on the emptied store panics. -/
theorem c10_have_similar_store_witness :
    files_c10 ≠ [] ∧
    fs_have_similar oracles_c10 files_c10 (Entry.str "q") (some rat95) =
      some (Except.ok (decide (rat95 < top1_sim oracles_c10 files_c10 [1, 0]))) ∧
    fs_have_similar oracles_c10 [] (Entry.str "q") (some rat95) = none := by
  refine ⟨by simp [files_c10], ?_, ?_⟩
  · exact (c10_have_similar_store oracles_c10 files_c10 (Entry.str "q") rat95
      (by decide) (by decide)).2.2.1 [1, 0] (by simp [files_c10]) rfl
  · exact (c10_have_similar_store oracles_c10 [] (Entry.str "q") rat95
      (by decide) (by decide)).2.2.2 [1, 0] rfl rfl
